import Mathlib

/-!
Shallow embedding of the Impala query coordinator
(src/be/src/runtime/coordinator.cc) and proofs about its
status-report bookkeeping, cancellation, wait/finalization and
debug-option parsing logic.

External collaborators (RPC transport, HDFS client, thrift-generated
enums, profiles) are modelled as explicit parameters; the control flow
of the coordinator itself is translated from the source.
-/

namespace Impala

/-- Status codes carried by impala::Status: OK, CANCELLED, a general error,
or the internal error used for protocol violations. -/
inductive StatusCode where
  | OK
  | CANCELLED
  | GENERAL
  | INTERNAL
deriving DecidableEq, Repr

/-- Model of impala::Status: a code together with accumulated error messages.
AddErrorMsg appends a message without changing the code. -/
structure Status where
  code : StatusCode
  msgs : List String
deriving DecidableEq, Repr

def Status.isOk (s : Status) : Bool := s.code == StatusCode.OK

def Status.isCancelled (s : Status) : Bool := s.code == StatusCode.CANCELLED

/-- Status::OK. -/
def Status.okSt : Status := { code := StatusCode.OK, msgs := [] }

/-- Status::CANCELLED. -/
def Status.cancelledSt : Status := { code := StatusCode.CANCELLED, msgs := [] }

/-- Status::AddErrorMsg / AddError, which append messages keeping the code. -/
def Status.addErrorMsgs (s : Status) (ms : List String) : Status :=
  { s with msgs := s.msgs ++ ms }

/-- The fields of Coordinator::BackendExecState that the claims are about.
The profile tree itself is external state; only the profile_created flag and
the error log are tracked. -/
structure BackendExecState where
  status : Status
  initiated : Bool
  done : Bool
  profile_created : Bool
  error_log : List String
deriving DecidableEq, Repr

/-- TInsertExecStatus: per-worker write-side report
(num_appended_rows and files_to_move thrift maps as association lists). -/
structure TInsertExecStatus where
  num_appended_rows : List (String × Int)
  files_to_move : List (String × String)
deriving DecidableEq, Repr

/-- TReportExecStatusParams: one worker status report. The profile tree is
external and not carried here; error_log and insert_exec_status are the
optional thrift fields (insert_exec_status none when not set). -/
structure TReportExecStatusParams where
  backend_num : Nat
  status : Status
  done : Bool
  error_log : List String
  insert_exec_status : Option TInsertExecStatus
deriving DecidableEq, Repr

/-- The Coordinator state the claims are about. partition_row_counts_ and
files_to_move_ are std::map members, modelled as association lists (key order
is irrelevant to the claims). cancel_rpcs records, in order, the backend
numbers for which a CancelPlanFragment rpc was attempted. -/
structure Coordinator where
  query_status : Status
  num_remaining_backends : Nat
  returned_all_results : Bool
  has_called_wait : Bool
  has_executor : Bool
  needs_finalization : Bool
  stmt_is_dml : Bool
  backend_exec_states : List BackendExecState
  partition_row_counts : List (String × Int)
  files_to_move : List (String × String)
  cancel_rpcs : List Nat
deriving DecidableEq, Repr

/-- Outcomes of the external rpc layer during cancellation: whether a client
connection to backend i can be obtained, and the final outcome of the
CancelPlanFragment rpc to backend i (transport retry folded into the
outcome). -/
structure RpcEnv where
  connOk : Nat → Bool
  cancelResp : Nat → Status

/-- The body of the per-state loop of Coordinator::CancelRemoteFragments:
skip states that are already non-OK, not initiated, or done; otherwise set
the status to CANCELLED, and issue the cancel rpc (recorded by the returned
Bool) unless no client connection is available; a non-OK rpc response has
its messages appended to the state's status. -/
def cancelOneState (env : RpcEnv) (i : Nat) (es : BackendExecState) :
    BackendExecState × Bool :=
  if es.status.isOk = false then (es, false)
  else if es.initiated = false then (es, false)
  else if es.done then (es, false)
  else if env.connOk i = false then
    ({ es with status := Status.cancelledSt }, false)
  else if (env.cancelResp i).isOk then
    ({ es with status := Status.cancelledSt }, true)
  else
    ({ es with
        status := Status.cancelledSt.addErrorMsgs (env.cancelResp i).msgs },
     true)

/-- The loop of Coordinator::CancelRemoteFragments over
backend_exec_states_[i..], returning the updated states and the backend
numbers for which a cancel rpc was attempted. -/
def cancelFragmentsFrom (env : RpcEnv) (i : Nat) :
    List BackendExecState → List BackendExecState × List Nat
  | [] => ([], [])
  | es :: rest =>
    let p := cancelOneState env i es
    let r := cancelFragmentsFrom env (i + 1) rest
    (p.1 :: r.1, (if p.2 then [i] else []) ++ r.2)

/-- Coordinator::CancelRemoteFragments (the notify of the completion
condition variable has no state in this model). -/
def cancelRemoteFragments (env : RpcEnv) (c : Coordinator) : Coordinator :=
  let r := cancelFragmentsFrom env 0 c.backend_exec_states
  { c with backend_exec_states := r.1, cancel_rpcs := c.cancel_rpcs ++ r.2 }

/-- Coordinator::CancelInternal: cancels the local executor (external state),
calls CancelRemoteFragments, and reports the query summary (profile-only
side effect). -/
def cancelInternal (env : RpcEnv) (c : Coordinator) : Coordinator :=
  cancelRemoteFragments env c

/-- Coordinator::Cancel(cause): if query_status_ is already non-OK,
cancellation has already been initiated and the call returns; otherwise
query_status_ becomes the cause (or CANCELLED when the cause is nil or OK)
and CancelInternal runs. -/
def cancel (env : RpcEnv) (c : Coordinator) (cause : Option Status) :
    Coordinator :=
  if c.query_status.isOk = false then c
  else
    let qs := match cause with
      | some s => if s.isOk then Status.cancelledSt else s
      | none => Status.cancelledSt
    cancelInternal env { c with query_status := qs }

/-- Coordinator::UpdateStatus(status): ignore a cancelled status after
returned_all_results_, ignore OK, never override an existing non-OK
query_status_; otherwise adopt the status and initiate cancellation.
The C++ function returns query_status_ of the resulting state. -/
def updateStatus (env : RpcEnv) (c : Coordinator) (status : Status) :
    Coordinator :=
  if c.returned_all_results && status.isCancelled then c
  else if status.isOk then c
  else if c.query_status.isOk = false then c
  else cancelInternal env { c with query_status := status }

/-- Value associated to a partition key in an association-list row-count map:
the sum of the values of entries carrying the key (a single entry when keys
are unique, as in std::map). -/
def rowCountOf (m : List (String × Int)) (k : String) : Int :=
  (m.map (fun e => if e.1 = k then e.2 else 0)).sum

/-- The operator[] += step of the merge loop: add v to the entry for key k,
inserting the entry if the key is absent. -/
def bumpRowCount : List (String × Int) → String → Int → List (String × Int)
  | [], k, v => [(k, v)]
  | e :: es, k, v =>
    if e.1 = k then (e.1, e.2 + v) :: es else e :: bumpRowCount es k v

/-- The BOOST_FOREACH merge loop over a report's num_appended_rows. -/
def mergeRowCounts (m : List (String × Int)) (entries : List (String × Int)) :
    List (String × Int) :=
  entries.foldl (fun acc e => bumpRowCount acc e.1 e.2) m

/-- std::map::insert over a range: insert each entry in order, skipping
entries whose key is already present. -/
def mapInsertRange (m : List (String × String))
    (entries : List (String × String)) : List (String × String) :=
  entries.foldl
    (fun acc e => if acc.any (fun x => x.1 == e.1) then acc else acc ++ [e]) m

/-- The insert merge in UpdateFragmentExecStatus, done under lock_ when the
report has done set and carries insert_exec_status: add per-partition row
counts and map-insert the files-to-move entries. (Per-partition insert
stats are merged into external profile state.) -/
def mergeInsertStatus (c : Coordinator) (ins : TInsertExecStatus) :
    Coordinator :=
  { c with
    partition_row_counts := mergeRowCounts c.partition_row_counts
      ins.num_appended_rows,
    files_to_move := mapInsertRange c.files_to_move ins.files_to_move }

/-- The per-state-lock section of UpdateFragmentExecStatus: adopt a non-OK
incoming status (never overwrite with an OK arriving late), set done from
the report, update profiles when the state's status is still OK (profile
contents are external; the profile_created flag is set), and append the
error log. -/
def updateExecStateFields (es : BackendExecState)
    (params : TReportExecStatusParams) : BackendExecState :=
  let es1 := if params.status.isOk then es else { es with status := params.status }
  let es2 := { es1 with done := params.done }
  let es3 := { es2 with profile_created := true }
  { es3 with error_log := es3.error_log ++ params.error_log }

/-- The in-place state write of UpdateFragmentExecStatus: replace the
looked-up state with its updated fields. -/
def reportApplyState (c : Coordinator) (params : TReportExecStatusParams)
    (es : BackendExecState) : Coordinator :=
  { c with backend_exec_states :=
      c.backend_exec_states.set params.backend_num (updateExecStateFields es params) }

/-- The conditional write-side merge of UpdateFragmentExecStatus, applied
only when the report has done set and carries insert_exec_status. -/
def reportApplyMerge (c : Coordinator) (params : TReportExecStatusParams) :
    Coordinator :=
  match params.insert_exec_status with
  | some ins => if params.done then mergeInsertStatus c ins else c
  | none => c

/-- The tail of UpdateFragmentExecStatus: on a true error (not a cancel
after returned_all_results_) call UpdateStatus and return OK; otherwise,
when done, decrement num_remaining_backends_ (notifying the completion
condition variable at zero). -/
def reportFinishPhase (env : RpcEnv) (c2 : Coordinator)
    (params : TReportExecStatusParams) : Coordinator × Status :=
  if !(c2.returned_all_results && params.status.isCancelled)
      && !params.status.isOk then
    (updateStatus env c2 params.status, Status.okSt)
  else if params.done then
    ({ c2 with num_remaining_backends := c2.num_remaining_backends - 1 },
     Status.okSt)
  else (c2, Status.okSt)

/-- Coordinator::UpdateFragmentExecStatus(params): look up the state by
backend_num (internal error when out of range); update the per-state fields;
merge write-side data when done and insert_exec_status is set; then the
finish phase above. Returns the rpc result status. -/
def updateFragmentExecStatus (env : RpcEnv) (c : Coordinator)
    (params : TReportExecStatusParams) : Coordinator × Status :=
  match c.backend_exec_states[params.backend_num]? with
  | none => (c, { code := StatusCode.INTERNAL, msgs := ["unknown backend number"] })
  | some es =>
    reportFinishPhase env (reportApplyMerge (reportApplyState c params es) params)
      params

/-- Processing a sequence of worker reports in arrival order. -/
def applyReports (env : RpcEnv) (c : Coordinator)
    (rs : List TReportExecStatusParams) : Coordinator :=
  rs.foldl (fun acc p => (updateFragmentExecStatus env acc p).1) c

/-- The operations of the concurrent coordinator interface that mutate
query-wide state: a worker report, a Cancel call, an UpdateStatus call. -/
inductive CoordOp where
  | report (p : TReportExecStatusParams)
  | cancelOp (cause : Option Status)
  | updStatusOp (s : Status)

def applyOp (env : RpcEnv) (c : Coordinator) : CoordOp → Coordinator
  | CoordOp.report p => (updateFragmentExecStatus env c p).1
  | CoordOp.cancelOp cause => cancel env c cause
  | CoordOp.updStatusOp s => updateStatus env c s

def applyOps (env : RpcEnv) (c : Coordinator) (ops : List CoordOp) :
    Coordinator :=
  ops.foldl (applyOp env) c

/-- Number of BackendExecStates whose done field is false. -/
def countNotDone (l : List BackendExecState) : Nat :=
  l.countP (fun es => !es.done)

/-- Invariant 3 of the spec: num_remaining_backends_ equals the number of
states with done == false. -/
def remainingInvariant (c : Coordinator) : Prop :=
  c.num_remaining_backends = countNotDone c.backend_exec_states

/-- Exit condition of the condition-variable loop in
Coordinator::WaitForAllBackends: the loop runs while
num_remaining_backends_ > 0 and query_status_ is OK. -/
def waitExitCond (c : Coordinator) : Prop :=
  c.num_remaining_backends = 0 ∨ c.query_status.isOk = false

/-- The hdfs bulk operations issued during finalization. -/
inductive HdfsOp where
  | del (p : String)
  | delThenCreate (p : String)
  | createDir (p : String)
  | rename (src dst : String)
deriving DecidableEq, Repr

def HdfsOp.isCreateDir : HdfsOp → Bool
  | HdfsOp.createDir _ => true
  | _ => false

/-- One entry of a hdfsListDirectory result: full path and whether the
object is a regular file (mKind == kObjectKindFile). -/
structure FileInfo where
  mName : String
  isFile : Bool
deriving DecidableEq, Repr

/-- boost path(...).filename(): the last component of a slash-separated
path. -/
def basename (s : String) : String :=
  (s.splitOn "/").getLastD s

/-- TFinalizeParams fields used by finalization. -/
structure FinalizeParams where
  hdfs_base_dir : String
  staging_dir : String
  is_overwrite : Bool
deriving DecidableEq, Repr

/-- External file-system layer consumed during finalization: directory
listing (none models a listing error), existence checks, the
IsHiddenFile predicate from util/hdfs-util, and the outcome of each bulk
operation (none models success, some msg an error message). -/
structure FsEnv where
  listDir : String → Option (List FileInfo)
  dirExists : String → Bool
  isHiddenFile : String → Bool
  opError : HdfsOp → Option String

/-- The ops scheduled for one partition key in step 1/2 of
FinalizeSuccessfulInsert. For an overwrite into the root (empty key) the
root directory is listed and a DELETE is scheduled for each immediate
regular non-hidden file (the DCHECK that the table is then unpartitioned,
i.e. that there is exactly one partition entry, is modelled as a check);
for an overwrite into an existing partition directory DELETE_THEN_CREATE,
otherwise CREATE_DIR. -/
def prepOpsForPartition (fs : FsEnv) (fin : FinalizeParams)
    (numPartitions : Nat) (key : String) : Except String (List HdfsOp) :=
  let part_path := fin.hdfs_base_dir ++ "/" ++ key
  if fin.is_overwrite then
    if key = "" then
      if numPartitions = 1 then
        match fs.listDir part_path with
        | none => Except.error ("Could not list directory: " ++ part_path)
        | some files =>
          Except.ok ((files.filter
            (fun f => f.isFile && !fs.isHiddenFile (basename f.mName))).map
            (fun f => HdfsOp.del f.mName))
      else Except.error "DCHECK failed: partition_row_counts_.size() == 1"
    else
      if fs.dirExists part_path then Except.ok [HdfsOp.delThenCreate part_path]
      else Except.ok [HdfsOp.createDir part_path]
  else Except.ok [HdfsOp.createDir part_path]

/-- The loop over partition_row_counts_ building partition_create_ops. -/
def partitionPrepOps (fs : FsEnv) (fin : FinalizeParams) (numPartitions : Nat) :
    List String → Except String (List HdfsOp)
  | [] => Except.ok []
  | k :: ks =>
    match prepOpsForPartition fs fin numPartitions k with
    | Except.error e => Except.error e
    | Except.ok ops =>
      match partitionPrepOps fs fin numPartitions ks with
      | Except.error e => Except.error e
      | Except.ok rest => Except.ok (ops ++ rest)

/-- The errors() list of a HdfsOperationSet after Execute: the failed
operations with their messages, in operation order. -/
def opErrors (fs : FsEnv) (ops : List HdfsOp) : List (HdfsOp × String) :=
  ops.filterMap (fun op => (fs.opError op).map (fun m => (op, m)))

/-- The error scan after executing partition_create_ops: iterate errors and
fail on the first one that is not a directory-creation error, with a message
carrying the total error count and that error's message; creation errors
alone are tolerated. -/
def checkPrepErrors (errs : List (HdfsOp × String)) : Except String Unit :=
  match errs.find? (fun e => !e.1.isCreateDir) with
  | none => Except.ok ()
  | some e => Except.error
      ("Error(s) deleting partition directories. First error (of "
        ++ toString errs.length ++ ") was: " ++ e.2)

/-- RENAME ops of step 3: files_to_move_ entries with non-empty
destination. -/
def moveOps (files_to_move : List (String × String)) : List HdfsOp :=
  (files_to_move.filter (fun m => !(m.2 = "" : Bool))).map
    (fun m => HdfsOp.rename m.1 m.2)

/-- Deferred directory deletions of step 4: files_to_move_ entries with an
empty destination. -/
def dirDeletionOps (files_to_move : List (String × String)) : List HdfsOp :=
  (files_to_move.filter (fun m => (m.2 = "" : Bool))).map
    (fun m => HdfsOp.del m.1)

/-- Coordinator::FinalizeSuccessfulInsert: prepare partition targets
(creation errors tolerated, deletion errors fatal), then execute the
renames (any error fatal, message carries the count and the first error),
then the staging-directory deletions (likewise). -/
def finalizeSuccessfulInsert (fs : FsEnv) (fin : FinalizeParams)
    (partitions : List (String × Int))
    (files_to_move : List (String × String)) : Except String Unit :=
  match partitionPrepOps fs fin partitions.length
      (partitions.map (fun e => e.1)) with
  | Except.error e => Except.error e
  | Except.ok prep =>
    match checkPrepErrors (opErrors fs prep) with
    | Except.error e => Except.error e
    | Except.ok _ =>
      match opErrors fs (moveOps files_to_move) with
      | e :: rest =>
        Except.error ("Error(s) moving partition files. First error (of "
          ++ toString (rest.length + 1) ++ ") was: " ++ e.2)
      | [] =>
        match opErrors fs (dirDeletionOps files_to_move) with
        | e :: rest =>
          Except.error ("Error(s) deleting staging directories. First error (of "
            ++ toString (rest.length + 1) ++ ") was: " ++ e.2)
        | [] => Except.ok ()

def statusOfExcept : Except String Unit → Status
  | Except.ok _ => Status.okSt
  | Except.error m => { code := StatusCode.GENERAL, msgs := [m] }

/-- Coordinator::FinalizeQuery: runs finalization even when query_status_
is non-OK (the recursive staging-root deletion always happens, an external
side effect) but surfaces the earlier error. -/
def finalizeQuery (fs : FsEnv) (fin : FinalizeParams) (c : Coordinator) :
    Status :=
  let ret := c.query_status
  if ret.isOk then
    statusOfExcept
      (finalizeSuccessfulInsert fs fin c.partition_row_counts c.files_to_move)
  else ret

/-- The once-only side effects of Coordinator::Wait. -/
inductive WaitEffect where
  | openExecutor
  | snapshotOutputs
  | finalize
  | reportSummary
deriving DecidableEq, Repr

/-- External inputs of Coordinator::Wait: the result of the local
executor's Open(), the local runtime state's write outputs snapshotted
into the coordinator maps, and the file-system layer and finalize params
used by finalization. -/
structure WaitEnv where
  openStatus : Status
  localFilesToMove : List (String × String)
  localRowCounts : List (String × Int)
  fs : FsEnv
  fin : FinalizeParams

/-- Coordinator::Wait, guarded by has_called_wait_ under wait_lock_.
On the first call: with a local executor, Open it and route the result
through UpdateStatus, and on success snapshot the write outputs; without
one, WaitForAllBackends (its return value is query_status_ at wake-up;
the model state stands for the state at that point), returning it directly
when no finalization is needed and it is an error. Then FinalizeQuery when
needed (its error is returned), and for DML the summary is reported.
Subsequent calls return Status::OK immediately. The opening phase below
covers the local-executor branch: Open routed through UpdateStatus and,
on success, the snapshot of the write outputs. -/
def waitOpenPhase (env : RpcEnv) (wenv : WaitEnv) (c0 : Coordinator) :
    Coordinator × List WaitEffect :=
  if c0.has_executor then
    let ca := updateStatus env c0 wenv.openStatus
    if ca.query_status.isOk then
      ({ ca with files_to_move := wenv.localFilesToMove,
                 partition_row_counts := wenv.localRowCounts },
       [WaitEffect.openExecutor, WaitEffect.snapshotOutputs])
    else (ca, [WaitEffect.openExecutor])
  else (c0, [])

/-- The tail of the first Wait call: finalization when needed (surfacing
its error) and, for DML, the summary report. -/
def waitFinishPhase (wenv : WaitEnv) (c1 : Coordinator)
    (effs1 : List WaitEffect) : Coordinator × Status × List WaitEffect :=
  if c1.needs_finalization then
    let fstat := finalizeQuery wenv.fs wenv.fin c1
    let effs2 := effs1 ++ [WaitEffect.finalize]
    if fstat.isOk = false then (c1, fstat, effs2)
    else if c1.stmt_is_dml then
      (c1, Status.okSt, effs2 ++ [WaitEffect.reportSummary])
    else (c1, Status.okSt, effs2)
  else if c1.stmt_is_dml then
    (c1, Status.okSt, effs1 ++ [WaitEffect.reportSummary])
  else (c1, Status.okSt, effs1)

def wait (env : RpcEnv) (wenv : WaitEnv) (c : Coordinator) :
    Coordinator × Status × List WaitEffect :=
  if c.has_called_wait then (c, Status.okSt, [])
  else
    let c0 : Coordinator := { c with has_called_wait := true }
    let step1 := waitOpenPhase env wenv c0
    let c1 := step1.1
    let effs1 := step1.2
    if c0.has_executor = false && c0.needs_finalization = false
        && c1.query_status.isOk = false then
      (c1, c1.query_status, effs1)
    else waitFinishPhase wenv c1 effs1

/-- External inputs of one Coordinator::GetNext call: the status returned
by the local executor's GetNext, whether the batch it produced is nil
(stream exhausted) and whether the executor reached its row limit. -/
structure GetNextEnv where
  execStatus : Status
  execBatchNil : Bool
  reachedLimit : Bool

/-- The coordinator state at the point where the exhausted-stream path of
GetNext enters WaitForAllBackends: returned_all_results_ is set, and on a
reached row limit the remote fragments are cancelled directly (the local
stream receivers are cancelled in external state). -/
def getNextPreWait (env : RpcEnv) (genv : GetNextEnv) (c : Coordinator) :
    Coordinator :=
  let c1 : Coordinator := { c with returned_all_results := true }
  if genv.reachedLimit then cancelRemoteFragments env c1 else c1

/-- Coordinator::GetNext: without a local executor return query_status_
with a nil batch. Otherwise pull a batch; route the executor status
through UpdateStatus, returning its result when non-OK. On a nil batch,
set returned_all_results_, cancel remotes on a reached limit, and block in
WaitForAllBackends (returning its error, and reporting the summary when
query_status_ is OK) before handing the nil batch out. The returned Bool
tells whether the batch handed to the caller is nil. -/
def getNext (env : RpcEnv) (genv : GetNextEnv) (c : Coordinator) :
    Coordinator × Status × Bool :=
  if c.has_executor = false then (c, c.query_status, true)
  else
    let c1 := updateStatus env c genv.execStatus
    if c1.query_status.isOk = false then (c1, c1.query_status, genv.execBatchNil)
    else if genv.execBatchNil then
      let c2 := getNextPreWait env genv c1
      if c2.query_status.isOk = false then (c2, c2.query_status, true)
      else (c2, Status.okSt, true)
    else (c1, Status.okSt, false)

/-- Modelled from the spec: the worker's exec-node phase enum
(thrift-generated TExecNodePhase; gen-cpp is not under src). INVALID marks
unset debug options. -/
inductive TExecNodePhase where
  | INVALID
  | PREPARE
  | OPEN
  | GETNEXT
  | CLOSE
deriving DecidableEq, Repr

/-- Modelled from the spec: the worker's debug-action enum
(thrift-generated TDebugAction; gen-cpp is not under src). -/
inductive TDebugAction where
  | WAIT
  | FAIL
deriving DecidableEq, Repr

/-- Modelled from the spec: the thrift-generated
_TExecNodePhase_VALUES_TO_NAMES map, value to symbolic name. -/
def execNodePhaseNames : List (TExecNodePhase × String) :=
  [(TExecNodePhase.INVALID, "INVALID"), (TExecNodePhase.PREPARE, "PREPARE"),
   (TExecNodePhase.OPEN, "OPEN"), (TExecNodePhase.GETNEXT, "GETNEXT"),
   (TExecNodePhase.CLOSE, "CLOSE")]

/-- Modelled from the spec: the thrift-generated
_TDebugAction_VALUES_TO_NAMES map. -/
def debugActionNames : List (TDebugAction × String) :=
  [(TDebugAction.WAIT, "WAIT"), (TDebugAction.FAIL, "FAIL")]

/-- boost iequals: ASCII case-insensitive string equality (compared on
lower-cased character sequences). -/
def iequals (a b : String) : Bool :=
  a.data.map Char.toLower == b.data.map Char.toLower

/-- GetExecNodePhase: scan the VALUES_TO_NAMES map for a case-insensitive
match; fall through to INVALID. -/
def getExecNodePhase (key : String) : TExecNodePhase :=
  match execNodePhaseNames.find? (fun e => iequals key e.2) with
  | some e => e.1
  | none => TExecNodePhase.INVALID

/-- GetDebugAction: scan the VALUES_TO_NAMES map for a case-insensitive
match; fall through to WAIT. -/
def getDebugAction (key : String) : TDebugAction :=
  match debugActionNames.find? (fun e => iequals key e.2) with
  | some e => e.1
  | none => TDebugAction.WAIT

/-- Digits-prefix accumulator for atoi. -/
def atoiDigits : List Char → Nat → Nat
  | c :: cs, acc =>
    if c.isDigit then atoiDigits cs (acc * 10 + (c.toNat - 48)) else acc
  | [], acc => acc

/-- C atoi on the already-trimmed component strings: optional sign followed
by a digit prefix; 0 when no digits. -/
def atoi (s : String) : Int :=
  match s.data with
  | '-' :: cs => -(atoiDigits cs 0 : Int)
  | '+' :: cs => (atoiDigits cs 0 : Int)
  | cs => (atoiDigits cs 0 : Int)

/-- Drops empty tokens produced by adjacent separators, keeping the final
(boundary) token. -/
def dropInnerEmpty : List String → List String
  | [] => []
  | [x] => [x]
  | x :: xs => if x = "" then dropInnerEmpty xs else x :: dropInnerEmpty xs

/-- Naive split of a character sequence at every colon. -/
def splitOnColon : List Char → List (List Char)
  | [] => [[]]
  | c :: rest =>
    if c = ':' then [] :: splitOnColon rest
    else
      match splitOnColon rest with
      | [] => [[c]]
      | g :: gs => (c :: g) :: gs

/-- boost split on a single separator character with token_compress_on:
adjacent separators are merged; boundary empty tokens remain. -/
def splitCompress (s : String) : List String :=
  match (splitOnColon s.data).map (fun g => String.mk g) with
  | [] => []
  | x :: xs => x :: dropInnerEmpty xs

/-- The DebugOptions container; phase INVALID signals that the options are
not set. -/
structure DebugOptions where
  backend_num : Int
  node_id : Int
  action : TDebugAction
  phase : TExecNodePhase
deriving DecidableEq, Repr

/-- The DebugOptions default constructor. -/
def initDebugOptions : DebugOptions :=
  { backend_num := -1, node_id := -1, action := TDebugAction.WAIT,
    phase := TExecNodePhase.INVALID }

/-- ProcessQueryOptions for the debug_action query option (none models the
thrift field not set): an unset or empty option resets the phase to
INVALID; a colon-split with fewer than 3 or more than 4 components returns
without writing; 3 components are node:phase:action for all backends, 4
are backend:node:phase:action. -/
def processQueryOptions (debug_action : Option String) (d : DebugOptions) :
    DebugOptions :=
  match debug_action with
  | none => { d with phase := TExecNodePhase.INVALID }
  | some s =>
    if s = "" then { d with phase := TExecNodePhase.INVALID }
    else
      let components := splitCompress s
      if components.length < 3 || components.length > 4 then d
      else if components.length = 3 then
        { d with backend_num := -1,
                 node_id := atoi (components.getD 0 ""),
                 phase := getExecNodePhase (components.getD 1 ""),
                 action := getDebugAction (components.getD 2 "") }
      else
        { backend_num := atoi (components.getD 0 ""),
          node_id := atoi (components.getD 1 ""),
          phase := getExecNodePhase (components.getD 2 ""),
          action := getDebugAction (components.getD 3 "") }

/-- The per-backend attachment test in Exec: debug options are attached to
backend backend_num only when the phase is not INVALID and the configured
backend number is -1 (all backends) or matches. -/
def debugOptionsAttached (d : DebugOptions) (backend_num : Nat) : Bool :=
  !(d.phase == TExecNodePhase.INVALID)
    && (d.backend_num == -1 || d.backend_num == Int.ofNat backend_num)

/-- Rpc environment where every connection succeeds and every cancel rpc
returns OK. -/
def rpcEnvOk : RpcEnv := { connOk := fun _ => true, cancelResp := fun _ => Status.okSt }

/-- A concrete worker error status. -/
def errSt : Status := { code := StatusCode.GENERAL, msgs := ["parse error"] }

/-- An initiated, still-running backend state. -/
def esRunning : BackendExecState :=
  { status := Status.okSt, initiated := true, done := false,
    profile_created := false, error_log := [] }

/-- An initiated backend state already marked CANCELLED by cancellation. -/
def esCancelled : BackendExecState := { esRunning with status := Status.cancelledSt }

/-- A backend state that has terminally reported success. -/
def esDone : BackendExecState := { esRunning with done := true }

/-- A coordinator with one running remote backend and no local fragment. -/
def coordOneBackend : Coordinator :=
  { query_status := Status.okSt, num_remaining_backends := 1,
    returned_all_results := false, has_called_wait := true, has_executor := false,
    needs_finalization := false, stmt_is_dml := false,
    backend_exec_states := [esRunning], partition_row_counts := [],
    files_to_move := [], cancel_rpcs := [] }

/-- The one-backend coordinator after Cancel: query_status CANCELLED, the
backend marked CANCELLED, one cancel rpc on record. -/
def coordCancelled : Coordinator :=
  { coordOneBackend with
    query_status := Status.cancelledSt,
    backend_exec_states := [esCancelled], cancel_rpcs := [0] }

/-- An error report with done set, as sent by a failing worker. -/
def errDoneReport : TReportExecStatusParams :=
  { backend_num := 0, status := errSt, done := true, error_log := [],
    insert_exec_status := none }

/-- A late OK report with done set, as sent by a worker that finished
cleanly after the query was cancelled. -/
def okDoneReport : TReportExecStatusParams :=
  { backend_num := 0, status := Status.okSt, done := true, error_log := [],
    insert_exec_status := none }

/-- File-system layer with an empty root listing and no operation
failures. -/
def fsEnvOk : FsEnv :=
  { listDir := fun _ => some [], dirExists := fun _ => false,
    isHiddenFile := fun _ => false, opError := fun _ => none }

/-- Finalize params of an overwrite insert. -/
def finOverwrite : FinalizeParams :=
  { hdfs_base_dir := "/base", staging_dir := "/staging", is_overwrite := true }

/-- Wait environment with a successful local Open and nothing to move. -/
def waitEnvOk : WaitEnv :=
  { openStatus := Status.okSt, localFilesToMove := [], localRowCounts := [],
    fs := fsEnvOk, fin := finOverwrite }

/-- A coordinator, before Wait, whose query has already failed: one backend
reported an error and the decrement was skipped on the error path. -/
def coordFailedBeforeWait : Coordinator :=
  { coordOneBackend with
    has_called_wait := false, query_status := errSt,
    backend_exec_states := [{ esRunning with status := errSt, done := true }] }

/-- Root-directory listing of an unpartitioned table: a data file, a hidden
file and a sub-directory. -/
def rootFiles : List FileInfo :=
  [{ mName := "/base/data1.txt", isFile := true },
   { mName := "/base/.hidden", isFile := true },
   { mName := "/base/tmpdir", isFile := false }]

/-- File system for the overwrite-into-root scenario; hidden files are
dot-files. -/
def fsRoot : FsEnv :=
  { listDir := fun p => if p = "/base/" then some rootFiles else none,
    dirExists := fun _ => false,
    isHiddenFile := fun n => n.startsWith ".",
    opError := fun _ => none }

/-- File system where every partition directory exists and wiping it
(DELETE_THEN_CREATE) fails. -/
def fsDeleteFails : FsEnv :=
  { fsRoot with
    dirExists := fun _ => true,
    opError := fun op =>
      match op with
      | HdfsOp.delThenCreate _ => some "Permission denied"
      | _ => none }

/-- Write-side report of worker A. -/
def insA : TInsertExecStatus :=
  { num_appended_rows := [("p=1", 10), ("p=2", 5)],
    files_to_move := [("/staging/a", "/base/p=1/a"), ("/staging/dirA", "")] }

/-- Write-side report of worker B, overlapping partition p=1. -/
def insB : TInsertExecStatus :=
  { num_appended_rows := [("p=1", 7)],
    files_to_move := [("/staging/b", "/base/p=1/b")] }

def repA : TReportExecStatusParams :=
  { backend_num := 0, status := Status.okSt, done := true, error_log := [],
    insert_exec_status := some insA }

def repB : TReportExecStatusParams :=
  { backend_num := 1, status := Status.okSt, done := true, error_log := [],
    insert_exec_status := some insB }

/-- A coordinator with two running remote backends (write query). -/
def coordTwoBackends : Coordinator :=
  { coordOneBackend with
    num_remaining_backends := 2,
    backend_exec_states := [esRunning, esRunning] }

/-- A coordinator whose only backend has terminally reported. -/
def coordAllDone : Coordinator :=
  { coordOneBackend with
    has_executor := true, num_remaining_backends := 0,
    backend_exec_states := [esDone] }

/-- GetNext environment for an exhausted local stream. -/
def genvNil : GetNextEnv :=
  { execStatus := Status.okSt, execBatchNil := true, reachedLimit := false }

/-- The per-partition row count that a report contributes to the merge:
its reported num_appended_rows when the report has done set and carries
insert_exec_status, nothing otherwise. -/
def reportRows (p : TReportExecStatusParams) (k : String) : Int :=
  match p.insert_exec_status with
  | some ins => if p.done then rowCountOf ins.num_appended_rows k else 0
  | none => 0

/-- The files-to-move entries that a report contributes to the merge:
its reported files_to_move when the report has done set and carries
insert_exec_status, nothing otherwise. -/
def reportFiles (p : TReportExecStatusParams) : List (String × String) :=
  match p.insert_exec_status with
  | some ins => if p.done then ins.files_to_move else []
  | none => []

/-! Helper lemmas about the cancellation path. -/

theorem cancelOneState_done (env : RpcEnv) (i : Nat) (es : BackendExecState) :
    (cancelOneState env i es).1.done = es.done := by
  unfold cancelOneState
  repeat' split
  all_goals rfl

theorem cancelOneState_of_nonOk (env : RpcEnv) (i : Nat)
    (es : BackendExecState) (h : es.status.isOk = false) :
    cancelOneState env i es = (es, false) := by
  unfold cancelOneState
  simp [h]

theorem cancelOneState_status_nonOk (env : RpcEnv) (i : Nat)
    (es : BackendExecState) (h : es.status.isOk = false) :
    (cancelOneState env i es).1.status.isOk = false := by
  rw [cancelOneState_of_nonOk env i es h]
  exact h

theorem cancelOneState_issued (env : RpcEnv) (i : Nat)
    (es : BackendExecState) (h : (cancelOneState env i es).2 = true) :
    es.status.isOk = true ∧ es.initiated = true ∧ es.done = false := by
  by_cases h1 : es.status.isOk = false
  · rw [cancelOneState_of_nonOk env i es h1] at h
    exact absurd h (by simp)
  · by_cases h2 : es.initiated = false
    · unfold cancelOneState at h
      simp [h2] at h
    · by_cases h3 : es.done = true
      · unfold cancelOneState at h
        simp [h3] at h
      · exact ⟨by simpa using h1, by simpa using h2, by simpa using h3⟩

theorem cancelFragmentsFrom_length (env : RpcEnv) (i : Nat)
    (l : List BackendExecState) :
    (cancelFragmentsFrom env i l).1.length = l.length := by
  induction l generalizing i with
  | nil => rfl
  | cons es rest ih => simp [cancelFragmentsFrom, ih]

theorem cancelFragmentsFrom_countNotDone (env : RpcEnv) (i : Nat)
    (l : List BackendExecState) :
    countNotDone (cancelFragmentsFrom env i l).1 = countNotDone l := by
  induction l generalizing i with
  | nil => rfl
  | cons es rest ih =>
    have ih2 := ih (i + 1)
    unfold countNotDone at ih2 ⊢
    simp [cancelFragmentsFrom, List.countP_cons, cancelOneState_done, ih2]

theorem cancelFragmentsFrom_getElem (env : RpcEnv)
    (l : List BackendExecState) : ∀ i j,
    (cancelFragmentsFrom env i l).1[j]? =
      (l[j]?).map (fun es => (cancelOneState env (i + j) es).1) := by
  induction l with
  | nil => intro i j; simp [cancelFragmentsFrom]
  | cons es rest ih =>
    intro i j
    cases j with
    | zero => simp [cancelFragmentsFrom]
    | succ j2 =>
      have harith : i + 1 + j2 = i + (j2 + 1) := by omega
      simp [cancelFragmentsFrom, ← harith, ih (i + 1) j2]

theorem cancelFragmentsFrom_issued_mem (env : RpcEnv) (i : Nat)
    (l : List BackendExecState) (j : Nat)
    (h : j ∈ (cancelFragmentsFrom env i l).2) :
    i ≤ j ∧ ∃ es, l[j - i]? = some es ∧ es.status.isOk = true ∧
      es.initiated = true ∧ es.done = false := by
  induction l generalizing i with
  | nil => simp [cancelFragmentsFrom] at h
  | cons es rest ih =>
    unfold cancelFragmentsFrom at h
    simp only [List.mem_append] at h
    rcases h with h1 | h2
    · by_cases hp : (cancelOneState env i es).2 = true
      · simp only [hp, if_true, List.mem_singleton] at h1
        subst h1
        refine ⟨Nat.le_refl _, es, ?_, cancelOneState_issued env _ es hp⟩
        simp
      · simp [hp] at h1
    · rcases ih (i + 1) h2 with ⟨hle, es2, hget, hrest⟩
      refine ⟨by omega, es2, ?_, hrest⟩
      have hidx : j - i = (j - (i + 1)) + 1 := by omega
      rw [hidx]
      simpa using hget

theorem cancelFragmentsFrom_issued_sorted (env : RpcEnv) (i : Nat)
    (l : List BackendExecState) :
    (cancelFragmentsFrom env i l).2.Pairwise (· < ·) := by
  induction l generalizing i with
  | nil => simp [cancelFragmentsFrom]
  | cons es rest ih =>
    unfold cancelFragmentsFrom
    refine List.pairwise_append.2 ⟨?_, ih (i + 1), ?_⟩
    · split
      · exact List.pairwise_singleton _ _
      · exact List.Pairwise.nil
    · intro a ha b hb
      have hb2 := (cancelFragmentsFrom_issued_mem env (i + 1) rest b hb).1
      have ha2 : a = i := by
        by_cases hp : (cancelOneState env i es).2 = true
        · simpa [hp] using ha
        · simp [hp] at ha
      omega

theorem cancelRemoteFragments_query_status (env : RpcEnv) (c : Coordinator) :
    (cancelRemoteFragments env c).query_status = c.query_status := rfl

theorem cancelInternal_states (env : RpcEnv) (c : Coordinator) :
    (cancelInternal env c).backend_exec_states
      = (cancelFragmentsFrom env 0 c.backend_exec_states).1 := rfl

theorem cancelInternal_query_status (env : RpcEnv) (c : Coordinator) :
    (cancelInternal env c).query_status = c.query_status := rfl

theorem cancelRemoteFragments_num (env : RpcEnv) (c : Coordinator) :
    (cancelRemoteFragments env c).num_remaining_backends
      = c.num_remaining_backends := rfl

theorem cancelRemoteFragments_countNotDone (env : RpcEnv) (c : Coordinator) :
    countNotDone (cancelRemoteFragments env c).backend_exec_states
      = countNotDone c.backend_exec_states :=
  cancelFragmentsFrom_countNotDone env 0 c.backend_exec_states

theorem cancel_of_nonOk (env : RpcEnv) (c : Coordinator)
    (cause : Option Status) (h : c.query_status.isOk = false) :
    cancel env c cause = c := by
  unfold cancel
  simp [h]

theorem cancel_query_status_nonOk (env : RpcEnv) (c : Coordinator)
    (cause : Option Status) :
    (cancel env c cause).query_status.isOk = false := by
  by_cases h : c.query_status.isOk = false
  · rw [cancel_of_nonOk env c cause h]
    exact h
  · unfold cancel
    rw [if_neg h, cancelInternal_query_status]
    rcases cause with _ | s
    · rfl
    · dsimp only
      by_cases hs : s.isOk = true
      · rw [if_pos hs]
        decide
      · rw [if_neg hs]
        simpa using hs

theorem updateStatus_of_nonOk (env : RpcEnv) (c : Coordinator) (s : Status)
    (h : c.query_status.isOk = false) : updateStatus env c s = c := by
  unfold updateStatus
  simp [h]

theorem updateStatus_num (env : RpcEnv) (c : Coordinator) (s : Status) :
    (updateStatus env c s).num_remaining_backends = c.num_remaining_backends := by
  unfold updateStatus
  repeat' split
  all_goals rfl

theorem updateStatus_returned (env : RpcEnv) (c : Coordinator) (s : Status) :
    (updateStatus env c s).returned_all_results = c.returned_all_results := by
  unfold updateStatus
  repeat' split
  all_goals rfl

theorem updateStatus_has_called_wait (env : RpcEnv) (c : Coordinator)
    (s : Status) :
    (updateStatus env c s).has_called_wait = c.has_called_wait := by
  unfold updateStatus
  repeat' split
  all_goals rfl

theorem updateStatus_countNotDone (env : RpcEnv) (c : Coordinator) (s : Status) :
    countNotDone (updateStatus env c s).backend_exec_states
      = countNotDone c.backend_exec_states := by
  unfold updateStatus
  repeat' split
  all_goals first
    | rfl
    | exact cancelRemoteFragments_countNotDone env _

theorem reportApplyState_query_status (c : Coordinator)
    (p : TReportExecStatusParams) (es : BackendExecState) :
    (reportApplyState c p es).query_status = c.query_status := rfl

theorem reportApplyState_num (c : Coordinator) (p : TReportExecStatusParams)
    (es : BackendExecState) :
    (reportApplyState c p es).num_remaining_backends
      = c.num_remaining_backends := rfl

theorem reportApplyState_returned (c : Coordinator)
    (p : TReportExecStatusParams) (es : BackendExecState) :
    (reportApplyState c p es).returned_all_results
      = c.returned_all_results := rfl

theorem reportApplyMerge_query_status (c : Coordinator)
    (p : TReportExecStatusParams) :
    (reportApplyMerge c p).query_status = c.query_status := by
  unfold reportApplyMerge
  cases h : p.insert_exec_status with
  | none => rfl
  | some ins =>
    repeat' split
    all_goals rfl

theorem reportApplyMerge_num (c : Coordinator) (p : TReportExecStatusParams) :
    (reportApplyMerge c p).num_remaining_backends
      = c.num_remaining_backends := by
  unfold reportApplyMerge
  cases h : p.insert_exec_status with
  | none => rfl
  | some ins =>
    repeat' split
    all_goals rfl

theorem reportApplyMerge_returned (c : Coordinator)
    (p : TReportExecStatusParams) :
    (reportApplyMerge c p).returned_all_results = c.returned_all_results := by
  unfold reportApplyMerge
  cases h : p.insert_exec_status with
  | none => rfl
  | some ins =>
    repeat' split
    all_goals rfl

theorem reportApplyMerge_states (c : Coordinator)
    (p : TReportExecStatusParams) :
    (reportApplyMerge c p).backend_exec_states = c.backend_exec_states := by
  unfold reportApplyMerge
  cases h : p.insert_exec_status with
  | none => rfl
  | some ins =>
    repeat' split
    all_goals rfl

theorem applyOp_query_status_sticky (env : RpcEnv) (c : Coordinator)
    (op : CoordOp) (h : c.query_status.isOk = false) :
    (applyOp env c op).query_status = c.query_status := by
  cases op with
  | cancelOp cause =>
    show (cancel env c cause).query_status = c.query_status
    rw [cancel_of_nonOk env c cause h]
  | updStatusOp s =>
    show (updateStatus env c s).query_status = c.query_status
    rw [updateStatus_of_nonOk env c s h]
  | report p =>
    show ((updateFragmentExecStatus env c p).1).query_status = c.query_status
    unfold updateFragmentExecStatus
    cases hm : c.backend_exec_states[p.backend_num]? with
    | none => simp only [hm]
    | some es =>
      simp only [hm]
      have hqs : (reportApplyMerge (reportApplyState c p es) p).query_status
          = c.query_status := by
        rw [reportApplyMerge_query_status, reportApplyState_query_status]
      unfold reportFinishPhase
      split
      · rw [updateStatus_of_nonOk _ _ _ (by rw [hqs]; exact h)]
        exact hqs
      · split
        · simpa using hqs
        · exact hqs

/-- C3: query_status is error-sticky: once it is non-OK, no later worker
report, UpdateStatus call or Cancel call changes it (so the first non-OK
value assigned to it wins). -/
theorem c3_query_status_sticky (env : RpcEnv) (c : Coordinator)
    (ops : List CoordOp) (h : c.query_status.isOk = false) :
    (applyOps env c ops).query_status = c.query_status := by
  induction ops generalizing c with
  | nil => rfl
  | cons op rest ih =>
    have h1 := applyOp_query_status_sticky env c op h
    have h2 : (applyOp env c op).query_status.isOk = false := by
      rw [h1]; exact h
    exact (ih (applyOp env c op) h2).trans h1

/-- Witness for C3 at a concrete cancelled coordinator and a concrete
sequence of operations. -/
theorem c3_witness :
    (applyOps rpcEnvOk coordCancelled
      [CoordOp.updStatusOp errSt, CoordOp.cancelOp none,
       CoordOp.report okDoneReport]).query_status
      = coordCancelled.query_status :=
  c3_query_status_sticky rpcEnvOk coordCancelled _ (by decide)

/-- C5: Cancel is idempotent: a second Cancel (from any thread, with any
cause) leaves the state exactly as after the first; a Cancel on an already
non-OK query_status has no effect; and one Cancel issues at most one cancel
rpc per backend (the issued list is strictly increasing), each to a backend
that was initiated, not done, and had an OK status. -/
theorem c5_cancel_idempotent (env env2 : RpcEnv) (c : Coordinator)
    (cause cause2 : Option Status) :
    cancel env2 (cancel env c cause) cause2 = cancel env c cause ∧
    (c.query_status.isOk = false → cancel env c cause = c) ∧
    ∃ issued, (cancel env c cause).cancel_rpcs = c.cancel_rpcs ++ issued ∧
      issued.Pairwise (· < ·) ∧
      ∀ j ∈ issued, ∃ es, c.backend_exec_states[j]? = some es ∧
        es.status.isOk = true ∧ es.initiated = true ∧ es.done = false := by
  refine ⟨?_, fun h => cancel_of_nonOk env c cause h, ?_⟩
  · exact cancel_of_nonOk env2 _ cause2 (cancel_query_status_nonOk env c cause)
  · by_cases h : c.query_status.isOk = false
    · exact ⟨[], by simp [cancel_of_nonOk env c cause h], List.Pairwise.nil,
        by simp⟩
    · refine ⟨(cancelFragmentsFrom env 0 c.backend_exec_states).2, ?_,
        cancelFragmentsFrom_issued_sorted env 0 _, ?_⟩
      · unfold cancel
        rw [if_neg h]
        rfl
      · intro j hj
        rcases cancelFragmentsFrom_issued_mem env 0 _ j hj with
          ⟨_, es, hget, hrest⟩
        exact ⟨es, by simpa using hget, hrest⟩

/-- Witness for C5: the double Cancel of the concrete one-backend
coordinator equals the single Cancel. -/
theorem c5_witness :
    cancel rpcEnvOk (cancel rpcEnvOk coordOneBackend none) none
      = cancel rpcEnvOk coordOneBackend none :=
  (c5_cancel_idempotent rpcEnvOk rpcEnvOk coordOneBackend none none).1

/-! Helper lemmas about Wait. -/

theorem waitOpenPhase_has_called_wait (env : RpcEnv) (wenv : WaitEnv)
    (c0 : Coordinator) :
    (waitOpenPhase env wenv c0).1.has_called_wait = c0.has_called_wait := by
  unfold waitOpenPhase
  split
  · dsimp only
    split
    · show (updateStatus env c0 wenv.openStatus).has_called_wait
        = c0.has_called_wait
      exact updateStatus_has_called_wait env c0 wenv.openStatus
    · exact updateStatus_has_called_wait env c0 wenv.openStatus
  · rfl

theorem waitFinishPhase_state (wenv : WaitEnv) (c1 : Coordinator)
    (effs1 : List WaitEffect) : (waitFinishPhase wenv c1 effs1).1 = c1 := by
  unfold waitFinishPhase
  dsimp only
  repeat' split
  all_goals rfl

theorem wait_has_called_wait (env : RpcEnv) (wenv : WaitEnv)
    (c : Coordinator) : (wait env wenv c).1.has_called_wait = true := by
  unfold wait
  split
  · next h => exact h
  · dsimp only
    split
    · exact (waitOpenPhase_has_called_wait env wenv _).trans rfl
    · rw [waitFinishPhase_state]
      exact (waitOpenPhase_has_called_wait env wenv _).trans rfl

/-- C4 (amended): Wait is guarded by has_called_wait: every call after the
first returns OK immediately, with no state change and no side effects, so
the open/snapshot/finalize/summary side effects happen exactly once; in
particular when the first call returns OK all calls return the same
status. -/
theorem c4_wait_guarded (env env2 : RpcEnv) (wenv wenv2 : WaitEnv)
    (c : Coordinator) :
    wait env2 wenv2 ((wait env wenv c).1)
      = ((wait env wenv c).1, Status.okSt, []) := by
  have h := wait_has_called_wait env wenv c
  generalize hX : (wait env wenv c).1 = X at h ⊢
  unfold wait
  rw [if_pos h]

/-- Counterexample for C4 as stated: on a query that failed before Wait
(no local fragment, no finalization), the first Wait returns the error but
a second Wait returns OK, so Wait does not return the same status on every
call. -/
theorem c4_counterexample :
    (wait rpcEnvOk waitEnvOk coordFailedBeforeWait).2.1 ≠
      (wait rpcEnvOk waitEnvOk
        ((wait rpcEnvOk waitEnvOk coordFailedBeforeWait).1)).2.1 := by
  decide

/-! Helper lemmas about report processing and the remaining-backends count. -/

theorem updateExecStateFields_done (es : BackendExecState)
    (p : TReportExecStatusParams) :
    (updateExecStateFields es p).done = p.done := by
  unfold updateExecStateFields
  split <;> rfl

theorem updateExecStateFields_status_nonOk (es : BackendExecState)
    (p : TReportExecStatusParams) (h : es.status.isOk = false) :
    (updateExecStateFields es p).status.isOk = false := by
  unfold updateExecStateFields
  by_cases hp : p.status.isOk = true
  · simp only [hp, if_true]
    exact h
  · simp [hp]

theorem mem_of_getElemOpt {α : Type} (l : List α) (i : Nat) (a : α)
    (h : l[i]? = some a) : a ∈ l := by
  induction l generalizing i with
  | nil => simp at h
  | cons x xs ih =>
    cases i with
    | zero =>
      simp only [List.getElem?_cons_zero, Option.some.injEq] at h
      subst h
      exact List.mem_cons_self _ _
    | succ i2 =>
      simp only [List.getElem?_cons_succ] at h
      exact List.mem_cons_of_mem x (ih i2 h)

theorem countNotDone_pos (l : List BackendExecState) (i : Nat)
    (es : BackendExecState) (h : l[i]? = some es) (hnd : es.done = false) :
    0 < countNotDone l := by
  have hmem : es ∈ l := mem_of_getElemOpt l i es h
  unfold countNotDone
  refine List.countP_pos_iff.2 ⟨es, hmem, ?_⟩
  simp [hnd]

theorem countNotDone_set (l : List BackendExecState) (i : Nat)
    (es es2 : BackendExecState) (h : l[i]? = some es) (hnd : es.done = false) :
    countNotDone (l.set i es2) + (if es2.done then 1 else 0)
      = countNotDone l := by
  induction l generalizing i with
  | nil => simp at h
  | cons a rest ih =>
    cases i with
    | zero =>
      simp only [List.getElem?_cons_zero, Option.some.injEq] at h
      have hnd2 : a.done = false := by rw [h]; exact hnd
      show countNotDone (es2 :: rest) + _ = countNotDone (a :: rest)
      unfold countNotDone
      simp only [List.countP_cons]
      cases hd2 : es2.done <;> simp [hnd2, hd2]
    | succ i2 =>
      simp only [List.getElem?_cons_succ] at h
      have hih := ih i2 h
      show countNotDone (a :: rest.set i2 es2) + _ = countNotDone (a :: rest)
      unfold countNotDone at hih ⊢
      simp only [List.countP_cons]
      omega

/-- Reduction of UpdateFragmentExecStatus when the backend number is in
range. -/
theorem updateFragment_reduce (env : RpcEnv) (c : Coordinator)
    (p : TReportExecStatusParams) (es : BackendExecState)
    (hes : c.backend_exec_states[p.backend_num]? = some es) :
    updateFragmentExecStatus env c p =
      reportFinishPhase env (reportApplyMerge (reportApplyState c p es) p)
        p := by
  unfold updateFragmentExecStatus
  rw [hes]

/-- C1 (amended): num_remaining_backends_ is non-increasing, and for a
backend that has not yet terminally reported, a report whose status is
benign (OK, or CANCELLED after returned_all_results_) and has done set
decrements it by exactly one, preserving the invariant
num_remaining_backends_ = number of states with done == false; a report
without done set preserves count and invariant. (A true-error report with
done set skips the decrement on the early-return error path, breaking the
equality; see the counterexample.) -/
theorem c1_remaining_invariant (env : RpcEnv) (c : Coordinator)
    (p : TReportExecStatusParams) (es : BackendExecState)
    (hinv : remainingInvariant c)
    (hes : c.backend_exec_states[p.backend_num]? = some es)
    (hnd : es.done = false)
    (hbenign : p.done = true →
      p.status.isOk = true ∨
        (p.status.isCancelled = true ∧ c.returned_all_results = true)) :
    remainingInvariant (updateFragmentExecStatus env c p).1 ∧
    (updateFragmentExecStatus env c p).1.num_remaining_backends
      ≤ c.num_remaining_backends ∧
    (p.done = true →
      (updateFragmentExecStatus env c p).1.num_remaining_backends + 1
        = c.num_remaining_backends) := by
  rw [updateFragment_reduce env c p es hes]
  unfold remainingInvariant at hinv
  set c2 := reportApplyMerge (reportApplyState c p es) p with hc2def
  have hnum2 : c2.num_remaining_backends = c.num_remaining_backends := by
    rw [hc2def, reportApplyMerge_num, reportApplyState_num]
  have hret2 : c2.returned_all_results = c.returned_all_results := by
    rw [hc2def, reportApplyMerge_returned, reportApplyState_returned]
  have hcount2 : countNotDone c2.backend_exec_states
      + (if p.done then 1 else 0) = countNotDone c.backend_exec_states := by
    rw [hc2def, reportApplyMerge_states]
    show countNotDone
        (c.backend_exec_states.set p.backend_num (updateExecStateFields es p))
        + _ = _
    have hkey := countNotDone_set c.backend_exec_states p.backend_num es
      (updateExecStateFields es p) hes hnd
    rw [updateExecStateFields_done] at hkey
    exact hkey
  by_cases hd : p.done = true
  · have hcond : ¬((!(c2.returned_all_results && p.status.isCancelled)
        && !p.status.isOk) = true) := by
      rcases hbenign hd with hok | hcr
      · simp [hok]
      · simp [hret2, hcr.1, hcr.2]
    have hres : reportFinishPhase env c2 p
        = ({ c2 with num_remaining_backends :=
              c2.num_remaining_backends - 1 }, Status.okSt) := by
      unfold reportFinishPhase
      rw [if_neg hcond, if_pos hd]
    rw [hres]
    have hc2d : countNotDone c2.backend_exec_states + 1
        = countNotDone c.backend_exec_states := by
      simpa [hd] using hcount2
    refine ⟨?_, ?_, fun _ => ?_⟩
    · unfold remainingInvariant
      dsimp only
      omega
    · dsimp only
      omega
    · dsimp only
      omega
  · have hdf : p.done = false := by
      cases hpd : p.done
      · rfl
      · exact absurd hpd hd
    have hc2d : countNotDone c2.backend_exec_states
        = countNotDone c.backend_exec_states := by
      simpa [hdf] using hcount2
    by_cases herr : (!(c2.returned_all_results && p.status.isCancelled)
        && !p.status.isOk) = true
    · have hres : reportFinishPhase env c2 p
          = (updateStatus env c2 p.status, Status.okSt) := by
        unfold reportFinishPhase
        rw [if_pos herr]
      rw [hres]
      have hnum3 := updateStatus_num env c2 p.status
      have hcount3 := updateStatus_countNotDone env c2 p.status
      refine ⟨?_, ?_, fun hcontra => absurd hcontra hd⟩
      · unfold remainingInvariant
        dsimp only
        omega
      · dsimp only
        omega
    · have hres : reportFinishPhase env c2 p = (c2, Status.okSt) := by
        unfold reportFinishPhase
        rw [if_neg herr, if_neg hd]
      rw [hres]
      refine ⟨?_, ?_, fun hcontra => absurd hcontra hd⟩
      · unfold remainingInvariant
        dsimp only
        omega
      · dsimp only
        omega

/-- Counterexample for C1 as stated: a worker error report with done set
reaches the early-return error path of UpdateFragmentExecStatus, which
skips the decrement: before the report the invariant holds (1 remaining,
one not-done state); after it the state is done (count 0) but
num_remaining_backends_ is still 1, so the report set done without
decrementing the count by one. -/
theorem c1_counterexample :
    remainingInvariant coordOneBackend ∧
    ((updateFragmentExecStatus rpcEnvOk coordOneBackend
      errDoneReport).1).num_remaining_backends = 1 ∧
    countNotDone ((updateFragmentExecStatus rpcEnvOk coordOneBackend
      errDoneReport).1).backend_exec_states = 0 := by
  unfold remainingInvariant countNotDone
  refine ⟨?_, ?_, ?_⟩ <;> decide

/-- Witness for C1 at a concrete coordinator: an OK done report decrements
the count from 1 to 0 and preserves the invariant. -/
theorem c1_witness :
    remainingInvariant ((updateFragmentExecStatus rpcEnvOk coordOneBackend
      okDoneReport).1) ∧
    ((updateFragmentExecStatus rpcEnvOk coordOneBackend
      okDoneReport).1).num_remaining_backends + 1
      = coordOneBackend.num_remaining_backends :=
  ⟨(c1_remaining_invariant rpcEnvOk coordOneBackend okDoneReport esRunning
      (by unfold remainingInvariant countNotDone; decide) (by decide)
      (by decide) (fun _ => Or.inl (by decide))).1,
   (c1_remaining_invariant rpcEnvOk coordOneBackend okDoneReport esRunning
      (by unfold remainingInvariant countNotDone; decide) (by decide)
      (by decide) (fun _ => Or.inl (by decide))).2.2 (by decide)⟩

/-! Helper lemmas for per-state status monotonicity (C2). -/

theorem getElemOpt_set_self {α : Type} (l : List α) (i : Nat) (a b : α)
    (h : l[i]? = some a) : (l.set i b)[i]? = some b := by
  induction l generalizing i with
  | nil => simp at h
  | cons x xs ih =>
    cases i with
    | zero => simp
    | succ i2 =>
      simp only [List.getElem?_cons_succ] at h
      simpa using ih i2 h

theorem getElemOpt_set_ne {α : Type} (l : List α) (i j : Nat) (b : α)
    (hne : i ≠ j) : (l.set i b)[j]? = l[j]? := by
  induction l generalizing i j with
  | nil => simp
  | cons x xs ih =>
    cases i with
    | zero =>
      cases j with
      | zero => exact absurd rfl hne
      | succ j2 => simp
    | succ i2 =>
      cases j with
      | zero => simp
      | succ j2 =>
        have hne2 : i2 ≠ j2 := fun hh => hne (by rw [hh])
        simpa using ih i2 j2 hne2

theorem updateExecStateFields_status_of_ok (es : BackendExecState)
    (p : TReportExecStatusParams) (h : p.status.isOk = true) :
    (updateExecStateFields es p).status = es.status := by
  unfold updateExecStateFields
  simp [h]

theorem updateStatus_status_nonOk_preserved (env : RpcEnv) (c : Coordinator)
    (s : Status) (i : Nat) (es es2 : BackendExecState)
    (h1 : c.backend_exec_states[i]? = some es)
    (h2 : (updateStatus env c s).backend_exec_states[i]? = some es2)
    (h : es.status.isOk = false) : es2.status.isOk = false := by
  unfold updateStatus at h2
  split at h2
  · rw [h1] at h2
    cases h2
    exact h
  · split at h2
    · rw [h1] at h2
      cases h2
      exact h
    · split at h2
      · rw [h1] at h2
        cases h2
        exact h
      · rw [cancelInternal_states] at h2
        rw [cancelFragmentsFrom_getElem env c.backend_exec_states 0 i, h1] at h2
        simp only [Option.map_some'] at h2
        cases h2
        exact cancelOneState_status_nonOk env _ es h

theorem cancel_status_nonOk_preserved (env : RpcEnv) (c : Coordinator)
    (cause : Option Status) (i : Nat) (es es2 : BackendExecState)
    (h1 : c.backend_exec_states[i]? = some es)
    (h2 : (cancel env c cause).backend_exec_states[i]? = some es2)
    (h : es.status.isOk = false) : es2.status.isOk = false := by
  unfold cancel at h2
  split at h2
  · rw [h1] at h2
    cases h2
    exact h
  · rw [cancelInternal_states] at h2
    rw [cancelFragmentsFrom_getElem env c.backend_exec_states 0 i, h1] at h2
    simp only [Option.map_some'] at h2
    cases h2
    exact cancelOneState_status_nonOk env _ es h

theorem report_status_nonOk_preserved (env : RpcEnv) (c : Coordinator)
    (p : TReportExecStatusParams) (i : Nat) (es es2 : BackendExecState)
    (h1 : c.backend_exec_states[i]? = some es)
    (h2 : ((updateFragmentExecStatus env c p).1).backend_exec_states[i]?
      = some es2)
    (h : es.status.isOk = false) : es2.status.isOk = false := by
  cases hm : c.backend_exec_states[p.backend_num]? with
  | none =>
    unfold updateFragmentExecStatus at h2
    rw [hm] at h2
    rw [h1] at h2
    cases h2
    exact h
  | some esb =>
    rw [updateFragment_reduce env c p esb hm] at h2
    have hmid : ∃ es3,
        ((reportApplyMerge (reportApplyState c p esb) p).backend_exec_states)[i]?
          = some es3 ∧ es3.status.isOk = false := by
      rw [reportApplyMerge_states]
      show ∃ es3, (c.backend_exec_states.set p.backend_num
        (updateExecStateFields esb p))[i]? = some es3 ∧ _
      by_cases hib : p.backend_num = i
      · subst hib
        have heq : es = esb := by
          rw [h1] at hm
          exact Option.some.inj hm
        refine ⟨updateExecStateFields esb p,
          getElemOpt_set_self _ _ esb _ hm, ?_⟩
        exact updateExecStateFields_status_nonOk esb p (heq ▸ h)
      · exact ⟨es, by rw [getElemOpt_set_ne _ _ _ _ hib]; exact h1, h⟩
    rcases hmid with ⟨es3, hes3, hok3⟩
    unfold reportFinishPhase at h2
    split at h2
    · exact updateStatus_status_nonOk_preserved env _ p.status i es3 es2 hes3
        h2 hok3
    · split at h2
      · dsimp only at h2
        rw [hes3] at h2
        cases h2
        exact hok3
      · dsimp only at h2
        rw [hes3] at h2
        cases h2
        exact hok3

theorem applyOp_status_nonOk_preserved (env : RpcEnv) (c : Coordinator)
    (op : CoordOp) (i : Nat) (es es2 : BackendExecState)
    (h1 : c.backend_exec_states[i]? = some es)
    (h2 : (applyOp env c op).backend_exec_states[i]? = some es2)
    (h : es.status.isOk = false) : es2.status.isOk = false := by
  cases op with
  | report p => exact report_status_nonOk_preserved env c p i es es2 h1 h2 h
  | cancelOp cause => exact cancel_status_nonOk_preserved env c cause i es es2 h1 h2 h
  | updStatusOp st => exact updateStatus_status_nonOk_preserved env c st i es es2 h1 h2 h

/-- C2: a backend state's status never goes back to OK under any report,
UpdateStatus or Cancel operation (error-stickiness per state); and a late
OK report with done set for a backend already marked CANCELLED sets done,
leaves the state's status CANCELLED (not rewritten to OK), leaves
query_status unchanged, and decrements num_remaining_backends by one. -/
theorem c2_status_monotone (env : RpcEnv) (c : Coordinator)
    (p : TReportExecStatusParams) (es : BackendExecState)
    (hes : c.backend_exec_states[p.backend_num]? = some es)
    (hcanc : es.status.code = StatusCode.CANCELLED)
    (hnd : es.done = false)
    (hinv : remainingInvariant c)
    (hok : p.status.isOk = true)
    (hpd : p.done = true) :
    (∀ (op : CoordOp) (i : Nat) (e e2 : BackendExecState),
      c.backend_exec_states[i]? = some e →
      (applyOp env c op).backend_exec_states[i]? = some e2 →
      e.status.isOk = false → e2.status.isOk = false) ∧
    (∃ es2, (updateFragmentExecStatus env c p).1.backend_exec_states[p.backend_num]? = some es2 ∧
      es2.done = true ∧ es2.status.code = StatusCode.CANCELLED) ∧
    (updateFragmentExecStatus env c p).1.query_status = c.query_status ∧
    (updateFragmentExecStatus env c p).1.num_remaining_backends + 1
      = c.num_remaining_backends := by
  have hcond : ¬((!((reportApplyMerge (reportApplyState c p es) p).returned_all_results
      && p.status.isCancelled) && !p.status.isOk) = true) := by
    simp [hok]
  have hres : updateFragmentExecStatus env c p
      = ({ reportApplyMerge (reportApplyState c p es) p with
            num_remaining_backends :=
              (reportApplyMerge (reportApplyState c p es) p).num_remaining_backends
                - 1 }, Status.okSt) := by
    rw [updateFragment_reduce env c p es hes]
    unfold reportFinishPhase
    rw [if_neg hcond, if_pos hpd]
  have hstates : (reportApplyMerge (reportApplyState c p es) p).backend_exec_states
      = c.backend_exec_states.set p.backend_num (updateExecStateFields es p) := by
    rw [reportApplyMerge_states]
    rfl
  refine ⟨fun op i e e2 h1 h2 he =>
      applyOp_status_nonOk_preserved env c op i e e2 h1 h2 he, ?_, ?_, ?_⟩
  · rw [hres]
    dsimp only
    refine ⟨updateExecStateFields es p, ?_, ?_, ?_⟩
    · rw [hstates]
      exact getElemOpt_set_self _ _ es _ hes
    · rw [updateExecStateFields_done]
      exact hpd
    · rw [updateExecStateFields_status_of_ok es p hok]
      exact hcanc
  · rw [hres]
    dsimp only
    rw [reportApplyMerge_query_status, reportApplyState_query_status]
  · rw [hres]
    dsimp only
    have hnum2 : (reportApplyMerge (reportApplyState c p es) p).num_remaining_backends
        = c.num_remaining_backends := by
      rw [reportApplyMerge_num, reportApplyState_num]
    have hpos := countNotDone_pos c.backend_exec_states p.backend_num es hes hnd
    unfold remainingInvariant at hinv
    omega

/-- Witness for C2: the late OK report after Cancel on the concrete
cancelled coordinator. -/
theorem c2_witness :
    (∃ es2, (updateFragmentExecStatus rpcEnvOk coordCancelled okDoneReport).1.backend_exec_states[okDoneReport.backend_num]? = some es2 ∧
      es2.done = true ∧ es2.status.code = StatusCode.CANCELLED) ∧
    (updateFragmentExecStatus rpcEnvOk coordCancelled okDoneReport).1.query_status
      = coordCancelled.query_status :=
  ⟨(c2_status_monotone rpcEnvOk coordCancelled okDoneReport esCancelled
      (by decide) (by decide) (by decide)
      (by unfold remainingInvariant countNotDone; decide)
      (by decide) (by decide)).2.1,
   (c2_status_monotone rpcEnvOk coordCancelled okDoneReport esCancelled
      (by decide) (by decide) (by decide)
      (by unfold remainingInvariant countNotDone; decide)
      (by decide) (by decide)).2.2.1⟩

/-! Helper lemmas for the GetNext exhausted-stream path (C6). -/

theorem updateStatus_invariant (env : RpcEnv) (c : Coordinator) (s : Status)
    (h : remainingInvariant c) : remainingInvariant (updateStatus env c s) := by
  unfold remainingInvariant at h ⊢
  rw [updateStatus_num, updateStatus_countNotDone]
  exact h

theorem cancelRemoteFragments_invariant (env : RpcEnv) (c : Coordinator)
    (h : remainingInvariant c) :
    remainingInvariant (cancelRemoteFragments env c) := by
  unfold remainingInvariant at h ⊢
  rw [cancelRemoteFragments_num, cancelRemoteFragments_countNotDone]
  exact h

theorem getNextPreWait_invariant (env : RpcEnv) (genv : GetNextEnv)
    (c : Coordinator) (h : remainingInvariant c) :
    remainingInvariant (getNextPreWait env genv c) := by
  unfold getNextPreWait
  split
  · exact cancelRemoteFragments_invariant env _ h
  · exact h

/-- C6: in the exhausted-local-stream path of GetNext (local executor
present, executor handed back a nil batch), whenever GetNext returns with
an OK status the batch handed to the caller is the final nil batch and
every backend has terminally reported (done = true). The hypothesis
waitExitCond states that the WaitForAllBackends condition-variable loop has
exited, i.e. num_remaining_backends_ = 0 or query_status_ is non-OK at the
state GetNext returns. -/
theorem c6_nil_only_after_all_done (env : RpcEnv) (genv : GetNextEnv)
    (c : Coordinator)
    (hexec : c.has_executor = true)
    (hnil : genv.execBatchNil = true)
    (hinv : remainingInvariant c)
    (hexit : waitExitCond (getNext env genv c).1)
    (hok : (getNext env genv c).2.1.isOk = true) :
    (getNext env genv c).2.2 = true ∧
    ∀ es ∈ (getNext env genv c).1.backend_exec_states, es.done = true := by
  by_cases h1 : (updateStatus env c genv.execStatus).query_status.isOk = false
  · exfalso
    have hred : (getNext env genv c).2.1
        = (updateStatus env c genv.execStatus).query_status := by
      unfold getNext
      simp [hexec, h1]
    rw [hred, h1] at hok
    exact absurd hok (by simp)
  · by_cases h2 : (getNextPreWait env genv
        (updateStatus env c genv.execStatus)).query_status.isOk = false
    · exfalso
      have hred : (getNext env genv c).2.1
          = (getNextPreWait env genv
              (updateStatus env c genv.execStatus)).query_status := by
        unfold getNext
        simp [hexec, h1, hnil, h2]
      rw [hred, h2] at hok
      exact absurd hok (by simp)
    · have hred : getNext env genv c
          = (getNextPreWait env genv (updateStatus env c genv.execStatus),
             Status.okSt, true) := by
        unfold getNext
        simp [hexec, h1, hnil, h2]
      rw [hred] at hexit ⊢
      refine ⟨rfl, ?_⟩
      have hinv2 : remainingInvariant (getNextPreWait env genv
          (updateStatus env c genv.execStatus)) :=
        getNextPreWait_invariant env genv _
          (updateStatus_invariant env c genv.execStatus hinv)
      have hnum0 : (getNextPreWait env genv
          (updateStatus env c genv.execStatus)).num_remaining_backends = 0 := by
        rcases hexit with h | h
        · exact h
        · exact absurd h h2
      intro es hmem
      unfold remainingInvariant at hinv2
      rw [hnum0] at hinv2
      have h3 := (List.countP_eq_zero.mp hinv2.symm) es hmem
      simpa using h3

/-- Witness for C6 at a concrete coordinator whose only backend has
terminally reported. -/
theorem c6_witness :
    (getNext rpcEnvOk genvNil coordAllDone).2.2 = true ∧
    ∀ es ∈ (getNext rpcEnvOk genvNil coordAllDone).1.backend_exec_states,
      es.done = true :=
  c6_nil_only_after_all_done rpcEnvOk genvNil coordAllDone (by decide)
    (by decide) (by unfold remainingInvariant countNotDone; decide)
    (by unfold waitExitCond; decide) (by decide)

/-! Helper lemmas for the write-side merge (C7). -/

theorem exists_getElemOpt_of_lt {α : Type} (l : List α) (i : Nat)
    (h : i < l.length) : ∃ a, l[i]? = some a := by
  induction l generalizing i with
  | nil => simp at h
  | cons x xs ih =>
    cases i with
    | zero => exact ⟨x, by simp⟩
    | succ i2 =>
      have h2 : i2 < xs.length := by
        simpa using h
      simpa using ih i2 h2

theorem lookupAppend (k : String) (l1 l2 : List (String × String)) :
    List.lookup k (l1 ++ l2)
      = (List.lookup k l1).orElse (fun _ => List.lookup k l2) := by
  induction l1 with
  | nil => simp [List.lookup]
  | cons e es ih =>
    obtain ⟨a, b⟩ := e
    by_cases h : (k == a) = true
    · simp [List.lookup, h]
    · have h2 : (k == a) = false := by
        simpa using h
      simp [List.lookup, h2, ih]

theorem anyKey_eq_isSome (m : List (String × String)) (k : String) :
    m.any (fun x => x.1 == k) = (List.lookup k m).isSome := by
  induction m with
  | nil => simp [List.lookup]
  | cons e es ih =>
    obtain ⟨a, b⟩ := e
    by_cases h : a = k
    · subst h
      simp [List.lookup]
    · have h1 : (a == k) = false := by
        simpa using h
      have h2 : (k == a) = false := by
        simpa using Ne.symm h
      simp [List.lookup, h1, h2, ih]

theorem lookup_mapInsertRange (entries : List (String × String)) :
    ∀ (m : List (String × String)) (k : String),
    List.lookup k (mapInsertRange m entries)
      = List.lookup k (m ++ entries) := by
  induction entries with
  | nil => intro m k; simp [mapInsertRange]
  | cons e tl ih =>
    intro m k
    show List.lookup k (mapInsertRange
      (if m.any (fun x => x.1 == e.1) then m else m ++ [e]) tl) = _
    by_cases h : (m.any (fun x => x.1 == e.1)) = true
    · rw [if_pos h, ih m k, lookupAppend, lookupAppend]
      by_cases hk : (k == e.1) = true
      · have hsome : (List.lookup k m).isSome = true := by
          rw [anyKey_eq_isSome] at h
          have hke : k = e.1 := by
            simpa using hk
          rw [hke]
          exact h
        cases hm2 : List.lookup k m with
        | none =>
          rw [hm2] at hsome
          simp at hsome
        | some v => simp [Option.orElse]
      · have hk2 : (k == e.1) = false := by
          simpa using hk
        have hskip : List.lookup k (e :: tl) = List.lookup k tl := by
          obtain ⟨a, b⟩ := e
          simp only at hk2
          simp [List.lookup, hk2]
        rw [hskip]
    · rw [if_neg h, ih (m ++ [e]) k, List.append_assoc]
      simp
  
theorem rowCountOf_bump (m : List (String × Int)) (k k2 : String) (v : Int) :
    rowCountOf (bumpRowCount m k v) k2
      = rowCountOf m k2 + (if k = k2 then v else 0) := by
  induction m with
  | nil =>
    unfold bumpRowCount rowCountOf
    simp
  | cons e es ih =>
    obtain ⟨a, b⟩ := e
    by_cases h : a = k
    · subst h
      rw [show bumpRowCount ((a, b) :: es) a v = (a, b + v) :: es from by
        simp [bumpRowCount]]
      unfold rowCountOf
      simp only [List.map_cons, List.sum_cons]
      by_cases h2 : a = k2
      · simp [h2]
        omega
      · simp [h2]
    · rw [show bumpRowCount ((a, b) :: es) k v
            = (a, b) :: bumpRowCount es k v from by
          simp [bumpRowCount, h]]
      unfold rowCountOf at ih ⊢
      simp only [List.map_cons, List.sum_cons]
      rw [ih]
      omega

theorem rowCountOf_mergeRowCounts (entries : List (String × Int)) :
    ∀ (m : List (String × Int)) (k : String),
    rowCountOf (mergeRowCounts m entries) k
      = rowCountOf m k + rowCountOf entries k := by
  induction entries with
  | nil =>
    intro m k
    unfold mergeRowCounts rowCountOf
    simp
  | cons e tl ih =>
    intro m k
    show rowCountOf (mergeRowCounts (bumpRowCount m e.1 e.2) tl) k = _
    rw [ih, rowCountOf_bump]
    have hcons : rowCountOf (e :: tl) k
        = (if e.1 = k then e.2 else 0) + rowCountOf tl k := by
      unfold rowCountOf
      simp
    rw [hcons]
    omega

theorem updateStatus_row_counts (env : RpcEnv) (c : Coordinator) (s : Status) :
    (updateStatus env c s).partition_row_counts = c.partition_row_counts := by
  unfold updateStatus
  repeat' split
  all_goals rfl

theorem updateStatus_files (env : RpcEnv) (c : Coordinator) (s : Status) :
    (updateStatus env c s).files_to_move = c.files_to_move := by
  unfold updateStatus
  repeat' split
  all_goals rfl

theorem updateStatus_states_length (env : RpcEnv) (c : Coordinator)
    (s : Status) :
    (updateStatus env c s).backend_exec_states.length
      = c.backend_exec_states.length := by
  unfold updateStatus
  repeat' split
  all_goals first
    | rfl
    | exact cancelFragmentsFrom_length env 0 _

theorem reportFinishPhase_row_counts (env : RpcEnv) (c2 : Coordinator)
    (p : TReportExecStatusParams) :
    (reportFinishPhase env c2 p).1.partition_row_counts
      = c2.partition_row_counts := by
  unfold reportFinishPhase
  repeat' split
  all_goals first
    | rfl
    | exact updateStatus_row_counts env _ _

theorem reportFinishPhase_files (env : RpcEnv) (c2 : Coordinator)
    (p : TReportExecStatusParams) :
    (reportFinishPhase env c2 p).1.files_to_move = c2.files_to_move := by
  unfold reportFinishPhase
  repeat' split
  all_goals first
    | rfl
    | exact updateStatus_files env _ _

theorem reportFinishPhase_states_length (env : RpcEnv) (c2 : Coordinator)
    (p : TReportExecStatusParams) :
    (reportFinishPhase env c2 p).1.backend_exec_states.length
      = c2.backend_exec_states.length := by
  unfold reportFinishPhase
  repeat' split
  all_goals first
    | rfl
    | exact updateStatus_states_length env _ _

theorem updateFragment_states_length (env : RpcEnv) (c : Coordinator)
    (p : TReportExecStatusParams) :
    (updateFragmentExecStatus env c p).1.backend_exec_states.length
      = c.backend_exec_states.length := by
  cases hm : c.backend_exec_states[p.backend_num]? with
  | none =>
    unfold updateFragmentExecStatus
    rw [hm]
  | some es =>
    rw [updateFragment_reduce env c p es hm, reportFinishPhase_states_length,
      reportApplyMerge_states]
    show (c.backend_exec_states.set p.backend_num
      (updateExecStateFields es p)).length = _
    simp

theorem updateFragment_row_counts (env : RpcEnv) (c : Coordinator)
    (p : TReportExecStatusParams) (es : BackendExecState)
    (hes : c.backend_exec_states[p.backend_num]? = some es) (k : String) :
    rowCountOf (updateFragmentExecStatus env c p).1.partition_row_counts k
      = rowCountOf c.partition_row_counts k + reportRows p k := by
  rw [updateFragment_reduce env c p es hes, reportFinishPhase_row_counts]
  unfold reportApplyMerge reportRows
  cases hins : p.insert_exec_status with
  | none =>
    dsimp only
    show rowCountOf c.partition_row_counts k = _
    simp
  | some ins =>
    dsimp only
    by_cases hd : p.done = true
    · rw [if_pos hd, if_pos hd]
      show rowCountOf (mergeRowCounts c.partition_row_counts
        ins.num_appended_rows) k = _
      rw [rowCountOf_mergeRowCounts]
    · rw [if_neg hd, if_neg hd]
      show rowCountOf c.partition_row_counts k = _
      simp

theorem updateFragment_files (env : RpcEnv) (c : Coordinator)
    (p : TReportExecStatusParams) (es : BackendExecState)
    (hes : c.backend_exec_states[p.backend_num]? = some es) (k : String) :
    List.lookup k (updateFragmentExecStatus env c p).1.files_to_move
      = List.lookup k (c.files_to_move ++ reportFiles p) := by
  rw [updateFragment_reduce env c p es hes, reportFinishPhase_files]
  unfold reportApplyMerge reportFiles
  cases hins : p.insert_exec_status with
  | none =>
    dsimp only
    show List.lookup k c.files_to_move = _
    simp
  | some ins =>
    dsimp only
    by_cases hd : p.done = true
    · rw [if_pos hd, if_pos hd]
      show List.lookup k (mapInsertRange c.files_to_move
        ins.files_to_move) = _
      rw [lookup_mapInsertRange]
    · rw [if_neg hd, if_neg hd]
      show List.lookup k c.files_to_move = _
      simp

theorem updateFragment_maps_unchanged (env : RpcEnv) (c : Coordinator)
    (p : TReportExecStatusParams)
    (h : p.done = false ∨ p.insert_exec_status = none) :
    (updateFragmentExecStatus env c p).1.partition_row_counts
        = c.partition_row_counts ∧
    (updateFragmentExecStatus env c p).1.files_to_move = c.files_to_move := by
  cases hm : c.backend_exec_states[p.backend_num]? with
  | none =>
    unfold updateFragmentExecStatus
    rw [hm]
    exact ⟨rfl, rfl⟩
  | some es =>
    rw [updateFragment_reduce env c p es hm, reportFinishPhase_row_counts,
      reportFinishPhase_files]
    unfold reportApplyMerge
    cases hins : p.insert_exec_status with
    | none => exact ⟨rfl, rfl⟩
    | some ins =>
      dsimp only
      rcases h with hd | hnone
      · rw [if_neg (by simp [hd])]
        exact ⟨rfl, rfl⟩
      · rw [hins] at hnone
        exact absurd hnone (by simp)

/-- C7: processing any sequence of worker reports (all with a valid backend
number) leaves partition_row_counts_ equal to the per-key sum of the initial
map and every report's num_appended_rows, and files_to_move_ equal (as a
key-value map) to the initial map extended with the union of every report's
files_to_move entries (left-biased on key collisions, as std::map::insert);
only reports with done set that carry insert_exec_status contribute, and a
report without them leaves both maps unchanged. -/
theorem c7_write_merge (env : RpcEnv) (c : Coordinator)
    (rs : List TReportExecStatusParams)
    (hlen : ∀ p ∈ rs, p.backend_num < c.backend_exec_states.length) :
    (∀ k, rowCountOf (applyReports env c rs).partition_row_counts k
      = rowCountOf c.partition_row_counts k
        + (rs.map (fun p => reportRows p k)).sum) ∧
    (∀ k, List.lookup k (applyReports env c rs).files_to_move
      = List.lookup k (c.files_to_move ++ (rs.map reportFiles).flatten)) ∧
    (∀ p, p.done = false ∨ p.insert_exec_status = none →
      (updateFragmentExecStatus env c p).1.partition_row_counts
          = c.partition_row_counts ∧
      (updateFragmentExecStatus env c p).1.files_to_move
          = c.files_to_move) := by
  have main : ∀ (rs2 : List TReportExecStatusParams) (c0 : Coordinator),
      (∀ p ∈ rs2, p.backend_num < c0.backend_exec_states.length) →
      (∀ k, rowCountOf (applyReports env c0 rs2).partition_row_counts k
        = rowCountOf c0.partition_row_counts k
          + (rs2.map (fun p => reportRows p k)).sum) ∧
      (∀ k, List.lookup k (applyReports env c0 rs2).files_to_move
        = List.lookup k (c0.files_to_move ++ (rs2.map reportFiles).flatten)) := by
    intro rs2
    induction rs2 with
    | nil =>
      intro c0 hl
      constructor
      · intro k
        simp [applyReports]
      · intro k
        simp [applyReports]
    | cons p tl ih =>
      intro c0 hl
      have hbn : p.backend_num < c0.backend_exec_states.length :=
        hl p (List.mem_cons_self _ _)
      rcases exists_getElemOpt_of_lt _ _ hbn with ⟨es, hes⟩
      have hl2 : ∀ q ∈ tl, q.backend_num
          < ((updateFragmentExecStatus env c0 p).1).backend_exec_states.length := by
        intro q hq
        rw [updateFragment_states_length]
        exact hl q (List.mem_cons_of_mem _ hq)
      have hstep := ih ((updateFragmentExecStatus env c0 p).1) hl2
      constructor
      · intro k
        have h1 := hstep.1 k
        have h2 := updateFragment_row_counts env c0 p es hes k
        show rowCountOf (applyReports env
          ((updateFragmentExecStatus env c0 p).1) tl).partition_row_counts k = _
        rw [h1, h2]
        simp only [List.map_cons, List.sum_cons]
        omega
      · intro k
        have h1 := hstep.2 k
        have h2 := updateFragment_files env c0 p es hes k
        show List.lookup k (applyReports env
          ((updateFragmentExecStatus env c0 p).1) tl).files_to_move = _
        rw [h1, lookupAppend, h2, lookupAppend]
        simp only [List.map_cons, List.flatten_cons]
        rw [lookupAppend, lookupAppend]
        cases List.lookup k c0.files_to_move <;>
          cases List.lookup k (reportFiles p) <;>
          simp [Option.orElse]
  exact ⟨(main rs c hlen).1, (main rs c hlen).2,
    fun p h => updateFragment_maps_unchanged env c p h⟩

/-- Witness for C7 on two concrete write-side reports touching the same
partition. -/
theorem c7_witness :
    rowCountOf (applyReports rpcEnvOk coordTwoBackends
        [repA, repB]).partition_row_counts "p=1"
      = rowCountOf coordTwoBackends.partition_row_counts "p=1"
        + (([repA, repB].map (fun p => reportRows p "p=1")).sum) :=
  (c7_write_merge rpcEnvOk coordTwoBackends [repA, repB] (by decide)).1 "p=1"

/-! Helper lemmas and theorems for finalization (C8, C9). -/

theorem partitionPrepOps_ok_elem (fs : FsEnv) (fin : FinalizeParams)
    (n : Nat) : ∀ (parts : List String) (ops : List HdfsOp) (key : String),
    partitionPrepOps fs fin n parts = Except.ok ops → key ∈ parts →
    ∃ o1, prepOpsForPartition fs fin n key = Except.ok o1 := by
  intro parts
  induction parts with
  | nil =>
    intro ops key h hmem
    simp at hmem
  | cons k2 tl ih =>
    intro ops key h hmem
    unfold partitionPrepOps at h
    cases hp : prepOpsForPartition fs fin n k2 with
    | error e =>
      rw [hp] at h
      cases h
    | ok o1 =>
      rw [hp] at h
      cases hr : partitionPrepOps fs fin n tl with
      | error e =>
        rw [hr] at h
        cases h
      | ok r1 =>
        rcases List.mem_cons.1 hmem with heq | hmem2
        · subst heq
          exact ⟨o1, hp⟩
        · exact ih r1 key hr hmem2

/-- C8: for an overwrite insert into the table root (the empty partition
key, one partition entry), the partition-preparation phase schedules
exactly one DELETE per immediate regular non-hidden file of the root
listing, so every scheduled deletion targets a regular non-hidden file and
directories are never deleted; moreover whenever the empty key occurs among
the partitions of a successful overwrite preparation, there is exactly one
partition entry (the DCHECK). -/
theorem c8_overwrite_root (fs : FsEnv) (fin : FinalizeParams)
    (files : List FileInfo)
    (hov : fin.is_overwrite = true)
    (hlist : fs.listDir (fin.hdfs_base_dir ++ "/") = some files) :
    partitionPrepOps fs fin 1 [""]
      = Except.ok ((files.filter
          (fun f => f.isFile && !fs.isHiddenFile (basename f.mName))).map
          (fun f => HdfsOp.del f.mName)) ∧
    (∀ op ∈ (files.filter
        (fun f => f.isFile && !fs.isHiddenFile (basename f.mName))).map
        (fun f => HdfsOp.del f.mName),
      ∃ f, f ∈ files ∧ f.isFile = true ∧
        fs.isHiddenFile (basename f.mName) = false ∧ op = HdfsOp.del f.mName) ∧
    (∀ (parts : List String) (ops : List HdfsOp), "" ∈ parts →
      partitionPrepOps fs fin parts.length parts = Except.ok ops →
      parts.length = 1) := by
  have hpath : fin.hdfs_base_dir ++ "/" ++ "" = fin.hdfs_base_dir ++ "/" := by
    simp
  refine ⟨?_, ?_, ?_⟩
  · have hprep : prepOpsForPartition fs fin 1 ""
        = Except.ok ((files.filter
            (fun f => f.isFile && !fs.isHiddenFile (basename f.mName))).map
            (fun f => HdfsOp.del f.mName)) := by
      unfold prepOpsForPartition
      rw [hpath]
      simp [hov, hlist]
    unfold partitionPrepOps
    rw [hprep]
    unfold partitionPrepOps
    simp
  · intro op hop
    rcases List.mem_map.1 hop with ⟨f, hf, hopf⟩
    rcases List.mem_filter.1 hf with ⟨hmem, hcond⟩
    simp only [Bool.and_eq_true, Bool.not_eq_true'] at hcond
    exact ⟨f, hmem, hcond.1, hcond.2, hopf.symm⟩
  · intro parts ops hmem hok
    rcases partitionPrepOps_ok_elem fs fin parts.length parts ops "" hok hmem
      with ⟨o1, ho1⟩
    by_contra hne
    unfold prepOpsForPartition at ho1
    rw [hpath] at ho1
    simp [hov, hne] at ho1

/-- Witness for C8 on a concrete root listing with a data file, a hidden
file and a sub-directory: only the data file is scheduled for deletion. -/
theorem c8_witness :
    partitionPrepOps fsRoot finOverwrite 1 [""]
      = Except.ok ((rootFiles.filter
          (fun f => f.isFile && !fsRoot.isHiddenFile (basename f.mName))).map
          (fun f => HdfsOp.del f.mName)) :=
  (c8_overwrite_root fsRoot finOverwrite rootFiles (by decide) (by decide)).1

/-- C9: in the partition-preparation phase of FinalizeSuccessfulInsert,
errors on directory-creation operations are tolerated (with no other
errors the function still returns OK), whereas the first error on a
non-creation (deletion) operation makes the function return an error whose
message carries the total error count and that error's message. -/
theorem c9_prep_error_policy (fs : FsEnv) (fin : FinalizeParams)
    (partitions : List (String × Int)) (fmoves : List (String × String))
    (prep : List HdfsOp)
    (hprep : partitionPrepOps fs fin partitions.length
      (partitions.map (fun e => e.1)) = Except.ok prep) :
    ((∀ e ∈ opErrors fs prep, e.1.isCreateDir = true) →
      opErrors fs (moveOps fmoves) = [] →
      opErrors fs (dirDeletionOps fmoves) = [] →
      finalizeSuccessfulInsert fs fin partitions fmoves = Except.ok ()) ∧
    (∀ err, (opErrors fs prep).find? (fun e => !e.1.isCreateDir) = some err →
      finalizeSuccessfulInsert fs fin partitions fmoves
        = Except.error
            ("Error(s) deleting partition directories. First error (of "
              ++ toString (opErrors fs prep).length ++ ") was: "
              ++ err.2)) := by
  constructor
  · intro hall hmv hdel
    have hchk : checkPrepErrors (opErrors fs prep) = Except.ok () := by
      unfold checkPrepErrors
      cases hf : (opErrors fs prep).find? (fun e => !e.1.isCreateDir) with
      | none => rfl
      | some e =>
        have hmem := List.mem_of_find?_eq_some hf
        have hpred := List.find?_some hf
        have h2 := hall e hmem
        simp [h2] at hpred
    unfold finalizeSuccessfulInsert
    rw [hprep]
    dsimp only
    rw [hchk]
    dsimp only
    rw [hmv]
    dsimp only
    rw [hdel]
  · intro err hf
    have hchk : checkPrepErrors (opErrors fs prep)
        = Except.error
            ("Error(s) deleting partition directories. First error (of "
              ++ toString (opErrors fs prep).length ++ ") was: "
              ++ err.2) := by
      unfold checkPrepErrors
      rw [hf]
    unfold finalizeSuccessfulInsert
    rw [hprep]
    dsimp only
    rw [hchk]

/-- Witness for C9: a failing DELETE_THEN_CREATE on an existing partition
directory is fatal with the count and the first message. -/
theorem c9_witness :
    finalizeSuccessfulInsert fsDeleteFails finOverwrite [("p=1", 10)] []
      = Except.error
          ("Error(s) deleting partition directories. First error (of "
            ++ toString (opErrors fsDeleteFails
                [HdfsOp.delThenCreate ("/base" ++ "/" ++ "p=1")]).length
            ++ ") was: " ++ "Permission denied") :=
  (c9_prep_error_policy fsDeleteFails finOverwrite [("p=1", 10)] []
    [HdfsOp.delThenCreate ("/base" ++ "/" ++ "p=1")] rfl).2
    (HdfsOp.delThenCreate ("/base" ++ "/" ++ "p=1"), "Permission denied")
    (by decide)

/-! Theorem for debug-action parsing (C10). -/

/-- C10: a debug_action string with fewer than 3 or more than 4
colon-compressed components leaves the default debug options unchanged
(phase stays INVALID); a phase name matching no known phase
(case-insensitively) yields INVALID; an action name matching no known
action silently defaults to WAIT; and options whose phase is INVALID are
attached to no backend. -/
theorem c10_debug_action_parsing :
    (∀ s : String,
      ((splitCompress s).length < 3 ∨ 4 < (splitCompress s).length) →
      processQueryOptions (some s) initDebugOptions = initDebugOptions) ∧
    (∀ key : String,
      (execNodePhaseNames.all (fun e => !iequals key e.2)) = true →
      getExecNodePhase key = TExecNodePhase.INVALID) ∧
    (∀ key : String,
      (debugActionNames.all (fun e => !iequals key e.2)) = true →
      getDebugAction key = TDebugAction.WAIT) ∧
    (∀ (d : DebugOptions) (bn : Nat), d.phase = TExecNodePhase.INVALID →
      debugOptionsAttached d bn = false) := by
  refine ⟨?_, ?_, ?_, ?_⟩
  · intro s hlen
    unfold processQueryOptions
    dsimp only
    by_cases hs : s = ""
    · rw [if_pos hs]
      rfl
    · rw [if_neg hs]
      have hcond : ((splitCompress s).length < 3
          || (splitCompress s).length > 4) = true := by
        rcases hlen with h | h
        · simp [h]
        · simp [h]
      rw [if_pos (by simpa using hcond)]
  · intro key hall
    unfold getExecNodePhase
    cases hf : execNodePhaseNames.find? (fun e => iequals key e.2) with
    | none => rfl
    | some e =>
      have hmem := List.mem_of_find?_eq_some hf
      have hpred := List.find?_some hf
      have h2 := (List.all_eq_true.mp hall) e hmem
      rw [hpred] at h2
      simp at h2
  · intro key hall
    unfold getDebugAction
    cases hf : debugActionNames.find? (fun e => iequals key e.2) with
    | none => rfl
    | some e =>
      have hmem := List.mem_of_find?_eq_some hf
      have hpred := List.find?_some hf
      have h2 := (List.all_eq_true.mp hall) e hmem
      rw [hpred] at h2
      simp at h2
  · intro d bn hphase
    unfold debugOptionsAttached
    simp [hphase]

/-- Witness for C10 on concrete strings: a 5-component string leaves the
options unset, unknown names map to INVALID and WAIT, and an option parsed
with an unknown phase is attached to no backend. -/
theorem c10_witness :
    processQueryOptions (some "1:2:3:4:5") initDebugOptions
      = initDebugOptions ∧
    getExecNodePhase "FROBNICATE" = TExecNodePhase.INVALID ∧
    getDebugAction "FROBNICATE" = TDebugAction.WAIT ∧
    debugOptionsAttached
      (processQueryOptions (some "0:FROBNICATE:WAIT") initDebugOptions) 3
      = false :=
  ⟨c10_debug_action_parsing.1 "1:2:3:4:5" (by decide),
   c10_debug_action_parsing.2.1 "FROBNICATE" (by decide),
   c10_debug_action_parsing.2.2.1 "FROBNICATE" (by decide),
   c10_debug_action_parsing.2.2.2
     (processQueryOptions (some "0:FROBNICATE:WAIT") initDebugOptions) 3
     (by decide)⟩

end Impala



